import Mathlib

/-!
Verification of the BudgetGPT transaction persistence and
command-reconciliation layer.

The definitions below are a shallow embedding of the Python sources:
`database.py` (class `Database`, the Persistent Store over PostgreSQL) and
`transaction_manager.py` (class `TransactionManager`).  SQL tables become
lists of records, `SERIAL` ids and `created_at` timestamps become counters
threaded through a state record, `DECIMAL`/float amounts become rationals,
and Python exceptions become `Except String`.  Methods keep their source
names (module `Database` / `TransactionManager`); the column `type` is
rendered `ttype` because `type` is a Lean keyword.
-/

namespace BudgetGPT

/-- A calendar date as stored in the `transactions.date` column (SQL `DATE`,
produced in Python by `datetime.strptime(s, "%Y-%m-%d").date()`). -/
structure Date where
  year : Nat
  month : Nat
  day : Nat
deriving DecidableEq, Repr, Inhabited

/-- Gregorian leap-year rule used by Python `datetime.date` validation. -/
def isLeapYear (y : Nat) : Bool :=
  (y % 4 == 0 && y % 100 != 0) || (y % 400 == 0)

/-- Number of days of month `m` in year `y` (the calendar enforced by the
Python `datetime.date` constructor). -/
def daysInMonth (y m : Nat) : Nat :=
  if m == 2 then (if isLeapYear y then 29 else 28)
  else if m == 4 || m == 6 || m == 9 || m == 11 then 30
  else 31

/-- Split a character list at every occurrence of the separator `sep`
(the semantics of Python `str.split(sep)` on single-character separators,
and of Lean `String.split` restricted to one character). -/
def splitChar (sep : Char) : List Char → List (List Char)
  | [] => [[]]
  | c :: cs =>
    let rest := splitChar sep cs
    if c = sep then [] :: rest
    else
      match rest with
      | [] => [[c]]
      | g :: gs => (c :: g) :: gs

/-- Numeric value of a list of decimal digit characters. -/
def digitsVal (cs : List Char) : Nat :=
  cs.foldl (fun a c => 10 * a + (c.toNat - 48)) 0

/-- Embedding of `datetime.strptime(s, "%Y-%m-%d").date()` as used by
`TransactionManager.add_transaction`.  CPython's `_strptime` matches the
whole string against three dash-separated digit groups: `%Y` is exactly four
digits, `%m` and `%d` are one or two digits, and the resulting numbers must
form a real calendar date with year at least 1 (`datetime.MINYEAR`).  Note
the format is slightly more lenient than strict ISO 8601: one-digit months
and days are accepted. -/
def parseDate (s : String) : Option Date :=
  match splitChar '-' s.data with
  | [ys, ms, ds] =>
    if ys.length = 4 ∧ ys.all Char.isDigit
        ∧ 1 ≤ ms.length ∧ ms.length ≤ 2 ∧ ms.all Char.isDigit
        ∧ 1 ≤ ds.length ∧ ds.length ≤ 2 ∧ ds.all Char.isDigit then
      let y := digitsVal ys
      let m := digitsVal ms
      let d := digitsVal ds
      if 1 ≤ y ∧ 1 ≤ m ∧ m ≤ 12 ∧ 1 ≤ d ∧ d ≤ daysInMonth y m then
        some ⟨y, m, d⟩
      else none
    else none
  | _ => none

/-- Remove leading and trailing whitespace characters (space, tab, carriage
return, line feed), the effect of the whitespace stripping CPython `float`
applies to its string argument. -/
def trimChars (cs : List Char) : List Char :=
  ((cs.dropWhile Char.isWhitespace).reverse.dropWhile Char.isWhitespace).reverse

/-- Embedding of CPython `float(s)` on finite decimal literals, the parser
used for the `amount` field (`float(transaction_data["amount"])`) and the
amount filter.  Grammar modelled: surrounding whitespace is stripped, then
an optional sign, a mantissa (`digits`, `digits.digits`, `digits.`, or
`.digits`), and an optional exponent `e`/`E` with optional sign.  The value
is kept exact as a rational; the special spellings `inf`/`nan` and digit
group underscores are outside the modelled grammar. -/
def pyFloat (s : String) : Option Rat :=
  let cs0 := trimChars s.data
  let signAndRest : Int × List Char :=
    match cs0 with
    | '+' :: r => (1, r)
    | '-' :: r => (-1, r)
    | r => (1, r)
  let sgn := signAndRest.1
  let cs1 := signAndRest.2
  let ipAndRest := cs1.span Char.isDigit
  let ip := ipAndRest.1
  let cs2 := ipAndRest.2
  let fpAndRest : List Char × List Char :=
    match cs2 with
    | '.' :: r => r.span Char.isDigit
    | _ => ([], cs2)
  let fp := fpAndRest.1
  let cs3 := match cs2 with
    | '.' :: _ => fpAndRest.2
    | _ => cs2
  if ip.isEmpty && fp.isEmpty then none
  else
    let mantNum : Int := sgn * (digitsVal ip * 10 ^ fp.length + digitsVal fp)
    let mantDen : Nat := 10 ^ fp.length
    match cs3 with
    | [] => some (Rat.divInt mantNum mantDen)
    | 'e' :: r | 'E' :: r =>
      let esignAndRest : Bool × List Char :=
        match r with
        | '+' :: r2 => (true, r2)
        | '-' :: r2 => (false, r2)
        | r2 => (true, r2)
      let edAndRest := esignAndRest.2.span Char.isDigit
      if edAndRest.1.isEmpty || !edAndRest.2.isEmpty then none
      else
        some (if esignAndRest.1 then Rat.divInt (mantNum * 10 ^ digitsVal edAndRest.1) mantDen
              else Rat.divInt mantNum (mantDen * 10 ^ digitsVal edAndRest.1))
    | _ => none

/-- One row of the `transactions` table
(`id SERIAL, date DATE, type VARCHAR, description TEXT, amount DECIMAL,
user_id INTEGER, created_at TIMESTAMP`).  `created_at` is modelled as a
strictly increasing insertion sequence number; the column `type` is the
field `ttype`. -/
structure Txn where
  id : Nat
  date : Date
  ttype : String
  description : String
  amount : Rat
  userId : Option Nat
  createdAt : Nat
deriving DecidableEq, Repr, Inhabited

/-- The state owned by class `Database` for the `transactions` table:
the rows plus the `SERIAL` id counter and the `created_at` clock. -/
structure DB where
  transactions : List Txn
  nextId : Nat
  nextSeq : Nat
deriving DecidableEq, Repr, Inhabited

/-- Embedding of `Database.add_transaction`: `INSERT INTO transactions
(date, type, description, amount, user_id) VALUES (...) RETURNING id`.
Returns the fresh id together with the new store state. -/
def Database.add_transaction (db : DB) (date : Date) (type_trans description : String)
    (amount : Rat) (user_id : Option Nat) : Nat × DB :=
  (db.nextId,
   { transactions :=
       db.transactions ++ [⟨db.nextId, date, type_trans, description, amount, user_id, db.nextSeq⟩]
     nextId := db.nextId + 1
     nextSeq := db.nextSeq + 1 })

/-- Python `str.lower()` (Lean `String.toLower`): lower-case every
character.  Spelled through `String.mk`/`String.data` so that it reduces
definitionally on literals. -/
def strToLower (s : String) : String :=
  String.mk (s.data.map Char.toLower)

/-- The payload dict handed to `TransactionManager.add_transaction`.
The `amount` entry is modelled as the decimal literal Python would hand to
`float`; for payloads carrying a JSON number, `float` is the identity and
the literal is that number's decimal spelling. -/
structure Payload where
  date : String
  ttype : String
  description : String
  amount : String
deriving DecidableEq, Repr

/-- Embedding of `TransactionManager.add_transaction`: parse the date with
`strptime "%Y-%m-%d"`, parse the amount with `float`, lower-case the type
and require it to be one of `expense`, `subscription`, `income`, then call
`Database.add_transaction`.  Any `ValueError`/`KeyError` is re-raised as
`ValueError("Invalid transaction data: ...")`; the store is only reached on
the fully validated path, so an error implies no row was written.  The
source performs no non-negativity check on the parsed amount and no check
at all on the description. -/
def TransactionManager.add_transaction (db : DB) (p : Payload) : Except String (Nat × DB) :=
  match parseDate p.date with
  | none => .error "Invalid transaction data: time data does not match format %Y-%m-%d"
  | some d =>
    match pyFloat p.amount with
    | none => .error "Invalid transaction data: could not convert string to float"
    | some a =>
      let type_trans := strToLower p.ttype
      if type_trans = "expense" ∨ type_trans = "subscription" ∨ type_trans = "income" then
        .ok (Database.add_transaction db d type_trans p.description a none)
      else
        .error "Invalid transaction data: Invalid transaction type"

/-- `a` strictly precedes `b` in calendar order (used to embed SQL
comparison of `DATE` values). -/
def dateLt (a b : Date) : Prop :=
  a.year < b.year ∨ (a.year = b.year ∧ (a.month < b.month ∨ (a.month = b.month ∧ a.day < b.day)))

instance (a b : Date) : Decidable (dateLt a b) := by
  unfold dateLt; infer_instance

/-- The row order `ORDER BY date DESC, created_at DESC` shared by
`Database.get_transactions` and `Database.filter_transactions`: `a` comes no
later than `b` when `a` has the later date, or the same date and the later
(or equal) insertion time.  Since `created_at` values are distinct in any
store reachable through `Database.add_transaction`, this relation determines
the result order completely. -/
def dfLe (a b : Txn) : Prop :=
  dateLt b.date a.date ∨ (b.date = a.date ∧ b.createdAt ≤ a.createdAt)

instance (a b : Txn) : Decidable (dfLe a b) := by
  unfold dfLe; infer_instance

/-- Embedding of `Database.get_transactions` (without owner scoping, as the
Manager calls it): all rows ordered by date descending then creation time
descending. -/
def Database.get_transactions (db : DB) : List Txn :=
  List.insertionSort dfLe db.transactions

/-- Embedding of `TransactionManager.get_transactions_df`: the transaction
table as displayed, one row per transaction in store order; the 1-based
`row` column is the position in this list. -/
def TransactionManager.get_transactions_df (db : DB) : List Txn :=
  Database.get_transactions db

/-- Scope predicate of `Database.get_balance` (and the owner scoping of
`filter_transactions`): keep rows of the given owner when one is supplied,
all rows otherwise. -/
def scopeOk (user_id : Option Nat) (t : Txn) : Bool :=
  match user_id with
  | some u => decide (t.userId = some u)
  | none => true

/-- Embedding of `Database.get_balance`:
`COALESCE(SUM(CASE WHEN type = income THEN amount ELSE 0 END), 0) -
 COALESCE(SUM(CASE WHEN type IN (expense, subscription) THEN amount ELSE 0 END), 0)`,
optionally scoped by `user_id`.  The trailing `or 0` of the Python code is
the identity here because the SQL result is already a number. -/
def Database.get_balance (db : DB) (user_id : Option Nat) : Rat :=
  let rows := db.transactions.filter (scopeOk user_id)
  ((rows.map fun t => if t.ttype = "income" then t.amount else 0).sum)
    - ((rows.map fun t => if t.ttype = "expense" ∨ t.ttype = "subscription" then t.amount else 0).sum)

/-- The balance as the specification words it:
`sum(income) - sum(expense) - sum(subscription)`, scoped by owner when
given.  Stated separately from `Database.get_balance` so the two can be
compared. -/
def specBalance (db : DB) (user_id : Option Nat) : Rat :=
  let rows := db.transactions.filter (scopeOk user_id)
  ((rows.filter fun t => decide (t.ttype = "income")).map Txn.amount).sum
    - ((rows.filter fun t => decide (t.ttype = "expense")).map Txn.amount).sum
    - ((rows.filter fun t => decide (t.ttype = "subscription")).map Txn.amount).sum

/-- Decimal rendering of `n` left-padded with zeros to width `w`
(`strftime` zero padding). -/
def padZero (w n : Nat) : String :=
  let s := toString n
  if s.length < w then String.mk (List.replicate (w - s.length) '0') ++ s else s

/-- Embedding of `pd.to_datetime(df.date).dt.strftime("%Y-%m")`: the
grouping key of the monthly breakdown, built from the year and month of the
transaction date only. -/
def monthKey (d : Date) : String :=
  padZero 4 d.year ++ "-" ++ padZero 2 d.month

/-- Result record of `TransactionManager.get_summary_stats`.  The
`monthly_breakdown` dict is modelled as an association list in ascending
key order (pandas `groupby` sorts its keys). -/
structure SummaryStats where
  total_expenses : Rat
  total_subscriptions : Rat
  current_balance : Rat
  monthly_breakdown : List (String × Rat)
deriving DecidableEq, Repr

/-- Embedding of `TransactionManager.get_summary_stats`: zeros and an empty
breakdown for an empty table, otherwise sums of the expense and
subscription amounts, the balance, and the per-month sums of `amount`
grouped by the `%Y-%m` key of `date` (pandas `groupby(month)["amount"].sum()`
with keys in ascending order). -/
def TransactionManager.get_summary_stats (db : DB) : SummaryStats :=
  let df := TransactionManager.get_transactions_df db
  if df.isEmpty then ⟨0, 0, 0, []⟩
  else
    let keys := List.insertionSort (fun a b : String => a ≤ b) (df.map fun t => monthKey t.date).dedup
    { total_expenses := ((df.filter fun t => decide (t.ttype = "expense")).map Txn.amount).sum
      total_subscriptions := ((df.filter fun t => decide (t.ttype = "subscription")).map Txn.amount).sum
      current_balance := Database.get_balance db none
      monthly_breakdown :=
        keys.map fun k => (k, ((df.filter fun t => decide (monthKey t.date = k)).map Txn.amount).sum) }

/-- `anySuffix f s = true` iff `f` accepts some suffix of `s` (including `s`
itself and `[]`); the search step behind the `%` wildcard. -/
def anySuffix (f : List Char → Bool) : List Char → Bool
  | [] => f []
  | c :: s => f (c :: s) || anySuffix f s

/-- SQL `LIKE` matching on character lists, as PostgreSQL evaluates the
patterns built by `Database.filter_transactions`: `%` matches any sequence,
`_` matches exactly one character, backslash escapes the following pattern
character, every other character matches itself.  (A pattern ending in a
lone backslash is an error in PostgreSQL; here it matches a literal
backslash, a case the theorems below never rely on.) -/
def likeMatch : List Char → List Char → Bool
  | [], s => s.isEmpty
  | c :: p, s =>
    if c = '%' then anySuffix (fun s2 => likeMatch p s2) s
    else if c = '_' then
      match s with
      | [] => false
      | _ :: s2 => likeMatch p s2
    else if c = '\\' then
      match p with
      | [] =>
        match s with
        | [] => false
        | d :: s2 => d == '\\' && likeMatch [] s2
      | e :: p2 =>
        match s with
        | [] => false
        | d :: s2 => d == e && likeMatch p2 s2
    else
      match s with
      | [] => false
      | d :: s2 => d == c && likeMatch p s2

/-- The comma-split-and-strip of `Database.filter_transactions`:
`[term.strip() for term in value.split(",")]`. -/
def splitTerms (value : String) : List String :=
  (splitChar ',' value.data).map fun cs => String.mk (trimChars cs)

/-- One `LIKE` condition of `Database.filter_transactions`:
`LOWER(column) LIKE LOWER('%term%')`.  Lower-casing the pattern fixes the
`%` anchors (they are not letters) and lower-cases the term. -/
def likeTokenMatch (term target : String) : Bool :=
  likeMatch ('%' :: (term.data.map Char.toLower ++ ['%'])) (target.data.map Char.toLower)

/-- The row scoping of `Database.filter_transactions`: `owner_id` wins over
`user_id`; with neither, every row qualifies. -/
def filterScope (user_id owner_id : Option Nat) (t : Txn) : Bool :=
  match owner_id with
  | some o => decide (t.userId = some o)
  | none => scopeOk user_id t

/-- Embedding of `Database.filter_transactions`: scope by `owner_id` if
given, else by `user_id` if given; then `column = "amount"` is an exact
numeric match returning `[]` outright when `float(value)` fails, while
`column = "type"` and `column = "description"` keep the rows where at least
one comma-separated stripped term `LIKE`-matches the column
case-insensitively (conditions joined with OR); any other column adds no
condition.  Results are ordered by `ORDER BY date DESC, created_at DESC`. -/
def Database.filter_transactions (db : DB) (column value : String)
    (user_id owner_id : Option Nat) : List Txn :=
  let base := db.transactions.filter (filterScope user_id owner_id)
  if column = "amount" then
    match pyFloat value with
    | none => []
    | some v => List.insertionSort dfLe (base.filter fun t => decide (t.amount = v))
  else if column = "type" then
    List.insertionSort dfLe
      (base.filter fun t => (splitTerms value).any fun term => likeTokenMatch term t.ttype)
  else if column = "description" then
    List.insertionSort dfLe
      (base.filter fun t => (splitTerms value).any fun term => likeTokenMatch term t.description)
  else
    List.insertionSort dfLe base

/-- The matching the specification claims for the `type` and `description`
columns: some comma-separated stripped term occurs as a case-insensitive
substring (contiguous) of the column value. -/
def substringCI (needle hay : String) : Prop :=
  (needle.data.map Char.toLower) <:+: (hay.data.map Char.toLower)

instance (needle hay : String) : Decidable (substringCI needle hay) := by
  unfold substringCI; exact List.decidableInfix _ _

/-- A literal pattern character: not one of the `LIKE` metacharacters `%`,
`_` and the escape `\`.  For search terms made of such characters the
`LIKE '%term%'` of `filter_transactions` is plain substring search. -/
def litChar (c : Char) : Prop :=
  c ≠ '%' ∧ c ≠ '_' ∧ c ≠ '\\'

instance (c : Char) : Decidable (litChar c) := by
  unfold litChar; infer_instance

/-- Embedding of `Database.delete_transaction`:
`DELETE FROM transactions WHERE id = %s RETURNING id`, reporting whether a
row was deleted. -/
def Database.delete_transaction (db : DB) (transaction_id : Nat) : Bool × DB :=
  (db.transactions.any fun t => decide (t.id = transaction_id),
   { db with transactions := db.transactions.filter fun t => !decide (t.id = transaction_id) })

/-- One entry of the per-id result list of the batch delete. -/
structure DeleteResult where
  id : Nat
  success : Bool
  error : Option String
deriving DecidableEq, Repr

/-- Modelled from the spec: `TransactionManager.delete_transactions` is
called from `main.py` but its definition is missing from the sources under
review.  Spec section 4.2: the batch form is best-effort, each id is
attempted independently (here through `Database.delete_transaction`) and
its outcome (`success` or `success:false` with an error) is collected into
a per-id result list; one failure does not abort the batch. -/
def TransactionManager.delete_transactions (db : DB) : List Nat → List DeleteResult × DB
  | [] => ([], db)
  | i :: rest =>
    let step := Database.delete_transaction db i
    let r : DeleteResult :=
      ⟨i, step.1, if step.1 then none else some "Transaction not found"⟩
    let rec2 := TransactionManager.delete_transactions step.2 rest
    (r :: rec2.1, rec2.2)

/-- The four mutable columns reachable through the Manager update flow;
`Database.update_transaction` interpolates the field name into
`SET {field} = %s`, and the Manager path only ever passes these four. -/
inductive Column
  | date
  | ttype
  | description
  | amount
deriving DecidableEq, Repr

/-- A typed value for one column, as the parameter bound to `%s`. -/
inductive ColValue
  | dateV (d : Date)
  | strV (s : String)
  | ratV (q : Rat)
deriving DecidableEq, Repr

/-- Overwrite one column of a row.  A value of the wrong shape for the
column leaves the row unchanged; the Manager path never produces one. -/
def setColumn (t : Txn) (f : Column) (v : ColValue) : Txn :=
  match f, v with
  | .date, .dateV d => { t with date := d }
  | .ttype, .strV s => { t with ttype := s }
  | .description, .strV s => { t with description := s }
  | .amount, .ratV q => { t with amount := q }
  | _, _ => t

/-- Embedding of `Database.update_transaction`:
`UPDATE transactions SET {field} = %s WHERE id = %s RETURNING id`; the
returned boolean is `cur.fetchone() is not None`, i.e. whether some row
matched the id. -/
def Database.update_transaction (db : DB) (transaction_id : Nat)
    (field : Column) (value : ColValue) : Bool × DB :=
  (db.transactions.any fun t => decide (t.id = transaction_id),
   { db with transactions :=
       db.transactions.map fun t =>
         if t.id = transaction_id then setColumn t field value else t })

/-- Modelled from the spec: `TransactionManager.update_transaction_field`
is called from the `main.py` edit grid but its definition is missing from
the sources under review.  Spec section 4.2: it re-validates the single
field using the same rules as `add_transaction` (ISO date, type in the
closed enum after lower-casing, amount a non-negative float, description a
non-empty string), then delegates to the Store; unknown field names are
rejected before reaching the Store, so on every error branch no store call
happens. -/
def TransactionManager.update_transaction_field (db : DB) (transaction_id : Nat)
    (field value : String) : Except String (Bool × DB) :=
  if field = "date" then
    match parseDate value with
    | some d => .ok (Database.update_transaction db transaction_id .date (.dateV d))
    | none => .error "Invalid date format. Use YYYY-MM-DD"
  else if field = "type" then
    let ty := strToLower value
    if ty = "expense" ∨ ty = "subscription" ∨ ty = "income" then
      .ok (Database.update_transaction db transaction_id .ttype (.strV ty))
    else .error "Invalid transaction type"
  else if field = "amount" then
    match pyFloat value with
    | some a =>
      if 0 ≤ a then .ok (Database.update_transaction db transaction_id .amount (.ratV a))
      else .error "Amount must be non-negative"
    | none => .error "Invalid amount format"
  else if field = "description" then
    if value = "" then .error "Description must be a non-empty string"
    else .ok (Database.update_transaction db transaction_id .description (.strV value))
  else .error "Unknown field name"

/-- Embedding of `TransactionManager.delete_transaction_by_row`: check the
1-based row number, resolve it against the displayed table
(`get_transactions_df`), then run
`DELETE FROM transactions WHERE date = %s AND description = %s AND amount = %s`
with the values of the resolved row — the surrogate id plays no part in the
`WHERE` clause — and fail if `cur.rowcount` is zero. -/
def TransactionManager.delete_transaction_by_row (db : DB) (row_number : Nat) :
    Except String DB :=
  if row_number < 1 then .error "Invalid row number. Must be a positive integer."
  else
    let df := TransactionManager.get_transactions_df db
    if df.isEmpty ∨ df.length < row_number then
      .error "Row number does not exist in the transaction table."
    else
      let t := df.getD (row_number - 1) default
      let hit := fun u : Txn =>
        decide (u.date = t.date ∧ u.description = t.description ∧ u.amount = t.amount)
      if (db.transactions.filter hit).isEmpty then
        .error "Failed to delete transaction. Please try again."
      else
        .ok { db with transactions := db.transactions.filter fun u => !hit u }

/-- One row of the `users` table (the columns the sharing queries read). -/
structure UserRec where
  id : Nat
  username : String
deriving DecidableEq, Repr

/-- One row of the `saved_filters` table. -/
structure SavedFilter where
  id : Nat
  name : String
  filter_column : String
  filter_text : String
  user_id : Option Nat
deriving DecidableEq, Repr

/-- One row of the `shared_filters` table.  Its `CREATE TABLE` is missing
from the sources under review; the columns are those the code inserts and
selects (`filter_id, owner_id, shared_with_id, created_at`), plus the
`status` field that is modelled from the spec: section 3 gives the
FilterSharing relation a `status` in `pending`, `accepted`, `rejected`
driving an invitation workflow, with `pending` as the initial state of a
new share. -/
structure SharedFilter where
  filter_id : Nat
  owner_id : Nat
  shared_with_id : Nat
  status : String
  created_at : Nat
deriving DecidableEq, Repr

/-- One row of the `user_partnerships` table. -/
structure Partnership where
  id : Nat
  user_id : Nat
  partner_id : Nat
  status : String
deriving DecidableEq, Repr

/-- The state read by the sharing and partnership queries of `Database`. -/
structure ShareDB where
  users : List UserRec
  saved_filters : List SavedFilter
  shared_filters : List SharedFilter
  partnerships : List Partnership
  nextSeq : Nat
deriving DecidableEq, Repr

/-- The partnership check of `Database.share_filter`:
`SELECT id FROM user_partnerships WHERE ((user_id = owner AND partner_id =
partner) OR (user_id = partner AND partner_id = owner)) AND status =
'accepted'` returned a row. -/
def hasAcceptedPartnership (db : ShareDB) (owner_id partner_id : Nat) : Bool :=
  db.partnerships.any fun p =>
    decide (((p.user_id = owner_id ∧ p.partner_id = partner_id) ∨
             (p.user_id = partner_id ∧ p.partner_id = owner_id)) ∧ p.status = "accepted")

/-- Embedding of `Database.share_filter`: verify an accepted partnership in
either direction (otherwise return `(False, "No active partnership found")`
and leave the store untouched), then
`INSERT INTO shared_filters ... ON CONFLICT (filter_id, owner_id,
shared_with_id) DO NOTHING` and report `(True, None)` — an already present
triple makes the insert a no-op. -/
def Database.share_filter (db : ShareDB) (filter_id owner_id partner_id : Nat) :
    (Bool × Option String) × ShareDB :=
  if hasAcceptedPartnership db owner_id partner_id then
    if db.shared_filters.any fun sf =>
        decide (sf.filter_id = filter_id ∧ sf.owner_id = owner_id ∧
                sf.shared_with_id = partner_id) then
      ((true, none), db)
    else
      ((true, none),
       { db with
         shared_filters :=
           db.shared_filters ++ [⟨filter_id, owner_id, partner_id, "pending", db.nextSeq⟩]
         nextSeq := db.nextSeq + 1 })
  else ((false, some "No active partnership found"), db)

/-- One row of the result of `Database.get_shared_filters`. -/
structure SharedFilterRow where
  id : Nat
  name : String
  filter_column : String
  filter_text : String
  shared_by : String
  shared_at : Nat
deriving DecidableEq, Repr

/-- `ORDER BY sf.created_at DESC` on share rows. -/
def sharedOrder (a b : SharedFilter) : Prop :=
  b.created_at ≤ a.created_at

instance (a b : SharedFilter) : Decidable (sharedOrder a b) := by
  unfold sharedOrder; infer_instance

/-- Embedding of `Database.get_shared_filters`: join `shared_filters` with
`saved_filters` on the filter id and `users` on the owner id, keep the rows
with `shared_with_id = user_id` — the query has no condition on the sharing
status — and order by share creation time descending.  The inner joins are
modelled with `find?`, faithful because `saved_filters.id` and `users.id`
are primary keys. -/
def Database.get_shared_filters (db : ShareDB) (user_id : Nat) : List SharedFilterRow :=
  let shares := List.insertionSort sharedOrder
    (db.shared_filters.filter fun sf => decide (sf.shared_with_id = user_id))
  shares.filterMap fun sf =>
    match db.saved_filters.find? (fun f => decide (f.id = sf.filter_id)),
          db.users.find? (fun u => decide (u.id = sf.owner_id)) with
    | some f, some u => some ⟨f.id, f.name, f.filter_column, f.filter_text, u.username, sf.created_at⟩
    | _, _ => none

end BudgetGPT

deriving instance DecidableEq for Except

namespace BudgetGPT

/-- Summing an `if`-guarded amount equals summing the amounts of the
filtered rows (the `CASE WHEN ... THEN amount ELSE 0 END` idiom). -/
theorem sum_map_ite (l : List Txn) (p : Txn → Prop) [DecidablePred p] :
    (l.map fun t => if p t then t.amount else 0).sum
      = ((l.filter fun t => decide (p t)).map Txn.amount).sum := by
  induction l with
  | nil => simp
  | cons a l ih => by_cases h : p a <;> simp [h, ih]

/-- A `CASE WHEN type IN (expense, subscription)` sum splits into the two
per-type sums, because no row has both types at once. -/
theorem sum_map_ite_or (l : List Txn) :
    (l.map fun t => if t.ttype = "expense" ∨ t.ttype = "subscription" then t.amount else 0).sum
      = ((l.filter fun t => decide (t.ttype = "expense")).map Txn.amount).sum
        + ((l.filter fun t => decide (t.ttype = "subscription")).map Txn.amount).sum := by
  induction l with
  | nil => simp
  | cons a l ih =>
    by_cases h1 : a.ttype = "expense"
    · simp [h1, ih]; ring
    · by_cases h2 : a.ttype = "subscription"
      · simp [h1, h2, ih]; ring
      · simp [h1, h2, ih]

/-- C1: the claim that `add_transaction` rejects negative amounts and empty
descriptions is false: the code parses the amount with plain `float` and
never checks its sign, and never inspects the description.  The payload
with `amount = "-5"` (a float that is not non-negative) is accepted and a
row is written, as is a payload with an empty description; a single-digit
month (not strict ISO `YYYY-MM-DD`) is also accepted. -/
theorem add_transaction_validation_counterexample :
    (TransactionManager.add_transaction ⟨[], 1, 0⟩ ⟨"2024-01-15", "expense", "lunch", "-5"⟩
        = .ok (1, ⟨[⟨1, ⟨2024, 1, 15⟩, "expense", "lunch", -5, none, 0⟩], 2, 1⟩))
    ∧ pyFloat "-5" = some (-5) ∧ ((-5 : Rat) < 0)
    ∧ (TransactionManager.add_transaction ⟨[], 1, 0⟩ ⟨"2024-01-15", "expense", "", "20"⟩
        = .ok (1, ⟨[⟨1, ⟨2024, 1, 15⟩, "expense", "", 20, none, 0⟩], 2, 1⟩))
    ∧ (TransactionManager.add_transaction ⟨[], 1, 0⟩ ⟨"2024-1-5", "income", "pay", "20"⟩
        = .ok (1, ⟨[⟨1, ⟨2024, 1, 5⟩, "income", "pay", 20, none, 0⟩], 2, 1⟩)) := by
  refine ⟨by decide, by decide, ?_, by decide, by decide⟩
  decide

/-- C1 (amended): a payload whose `date` does not parse under
`strptime "%Y-%m-%d"` or whose `amount` does not parse under `float` makes
`TransactionManager.add_transaction` raise `ValueError` — and the store
call, which occurs only after full validation, is never reached, so no row
is written.  (No non-negativity check on the amount and no check on the
description exist in the code.) -/
theorem add_transaction_parse_failures_raise (db : DB) (p : Payload)
    (h : parseDate p.date = none ∨ pyFloat p.amount = none) :
    ∃ e, TransactionManager.add_transaction db p = .error e := by
  unfold TransactionManager.add_transaction
  rcases h with h | h
  · rw [h]; exact ⟨_, rfl⟩
  · cases hd : parseDate p.date with
    | none => exact ⟨_, rfl⟩
    | some d => rw [h]; exact ⟨_, rfl⟩

theorem add_transaction_parse_failures_raise_witness :
    (∃ e, TransactionManager.add_transaction ⟨[], 1, 0⟩ ⟨"not-a-date", "expense", "x", "5"⟩
        = Except.error e)
    ∧ (∃ e, TransactionManager.add_transaction ⟨[], 1, 0⟩ ⟨"2024-01-15", "expense", "x", "abc"⟩
        = Except.error e) :=
  ⟨add_transaction_parse_failures_raise _ _ (Or.inl (by decide)),
   add_transaction_parse_failures_raise _ _ (Or.inr (by decide))⟩

/-- C2: a payload whose lower-cased type is outside
`{expense, subscription, income}` always makes `add_transaction` raise
(whatever the other fields are), and the store call is never reached; and
conversely every row added by a successful `add_transaction` carries a type
from the closed enum, so rows persisted through the Manager always do. -/
theorem add_transaction_type_enum :
    (∀ (db : DB) (p : Payload),
      ¬(strToLower p.ttype = "expense" ∨ strToLower p.ttype = "subscription"
          ∨ strToLower p.ttype = "income") →
      ∃ e, TransactionManager.add_transaction db p = .error e)
    ∧ (∀ (db : DB) (p : Payload) (r : Nat) (db2 : DB),
      TransactionManager.add_transaction db p = .ok (r, db2) →
      ∀ t ∈ db2.transactions, t ∈ db.transactions ∨
        (t.ttype = "expense" ∨ t.ttype = "subscription" ∨ t.ttype = "income")) := by
  constructor
  · intro db p h
    cases hd : parseDate p.date with
    | none => exact ⟨_, by simp only [TransactionManager.add_transaction, hd]; rfl⟩
    | some d =>
      cases ha : pyFloat p.amount with
      | none => exact ⟨_, by simp only [TransactionManager.add_transaction, hd, ha]; rfl⟩
      | some a =>
        exact ⟨_, by simp only [TransactionManager.add_transaction, hd, ha, if_neg h]; rfl⟩
  · intro db p r db2 h t ht
    simp only [TransactionManager.add_transaction] at h
    cases hd : parseDate p.date with
    | none => simp only [hd] at h; exact Except.noConfusion h
    | some d =>
      simp only [hd] at h
      cases ha : pyFloat p.amount with
      | none => simp only [ha] at h; exact Except.noConfusion h
      | some a =>
        simp only [ha] at h
        by_cases henum : strToLower p.ttype = "expense" ∨ strToLower p.ttype = "subscription"
            ∨ strToLower p.ttype = "income"
        · rw [if_pos henum] at h
          cases h
          simp only [Database.add_transaction, List.mem_append, List.mem_singleton] at ht
          rcases ht with ht | ht
          · exact Or.inl ht
          · subst ht; exact Or.inr henum
        · rw [if_neg henum] at h; exact Except.noConfusion h

theorem add_transaction_type_enum_witness :
    (∃ e, TransactionManager.add_transaction ⟨[], 1, 0⟩ ⟨"2024-01-15", "food", "x", "5"⟩
        = Except.error e)
    ∧ (∀ t ∈ (⟨[⟨1, ⟨2024, 1, 15⟩, "expense", "lunch", 5, none, 0⟩], 2, 1⟩ : DB).transactions,
        t ∈ (⟨[], 1, 0⟩ : DB).transactions ∨
          (t.ttype = "expense" ∨ t.ttype = "subscription" ∨ t.ttype = "income")) :=
  ⟨add_transaction_type_enum.1 _ _ (by decide),
   add_transaction_type_enum.2 ⟨[], 1, 0⟩ ⟨"2024-01-15", "expense", "lunch", "5"⟩ 1 _ (by decide)⟩

/-- C6: `Database.get_balance` computes exactly
`sum(income) - sum(expense) - sum(subscription)` over the (optionally
owner-scoped) rows, is 0 on an empty store, and the concrete store holding
`income=100, expense=30, subscription=20` yields 50. -/
theorem get_balance_correct :
    (∀ (db : DB) (uid : Option Nat), Database.get_balance db uid = specBalance db uid)
    ∧ (∀ uid : Option Nat, Database.get_balance ⟨[], 1, 0⟩ uid = 0)
    ∧ Database.get_balance
        ⟨[⟨1, ⟨2024, 1, 1⟩, "income", "pay", 100, none, 0⟩,
          ⟨2, ⟨2024, 1, 2⟩, "expense", "food", 30, none, 1⟩,
          ⟨3, ⟨2024, 1, 3⟩, "subscription", "tv", 20, none, 2⟩], 4, 3⟩ none = 50 := by
  refine ⟨fun db uid => ?_, fun uid => ?_, ?_⟩
  · simp only [Database.get_balance, specBalance]
    rw [sum_map_ite _ (fun t => t.ttype = "income"), sum_map_ite_or]
    ring
  · cases uid <;> simp [Database.get_balance, scopeOk]
  · simp [Database.get_balance, scopeOk]; norm_num

/-- C3: the batch delete attempts every id independently: the result list
has one entry per id in order, every entry is either a success or a failure
carrying an error message, and the final store has lost exactly the rows
whose id occurs in the list — a failing id removes nothing else from the
batch.  Concretely, `delete_transactions [1, 2, 999]` on a store holding
ids 1 and 2 yields two successes, one failure with a descriptive error, and
both rows 1 and 2 are removed. -/
theorem delete_transactions_best_effort :
    (∀ (db : DB) (ids : List Nat),
      ((TransactionManager.delete_transactions db ids).1.map DeleteResult.id = ids)
      ∧ ((TransactionManager.delete_transactions db ids).2.transactions
          = db.transactions.filter fun t => !ids.contains t.id)
      ∧ ((TransactionManager.delete_transactions db ids).1.all
          fun r => r.success || r.error.isSome) = true)
    ∧ TransactionManager.delete_transactions
        ⟨[⟨1, ⟨2024, 1, 1⟩, "expense", "a", 5, none, 0⟩,
          ⟨2, ⟨2024, 1, 2⟩, "income", "b", 7, none, 1⟩], 3, 2⟩ [1, 2, 999]
        = ([⟨1, true, none⟩, ⟨2, true, none⟩, ⟨999, false, some "Transaction not found"⟩],
           ⟨[], 3, 2⟩) := by
  constructor
  · intro db ids
    induction ids generalizing db with
    | nil => simp [TransactionManager.delete_transactions]
    | cons i rest ih =>
      obtain ⟨ih1, ih2, ih3⟩ := ih (Database.delete_transaction db i).2
      refine ⟨?_, ?_, ?_⟩
      · simp [TransactionManager.delete_transactions, ih1]
      · simp only [TransactionManager.delete_transactions]
        rw [ih2]
        simp only [Database.delete_transaction]
        rw [List.filter_filter]
        apply List.filter_congr
        intro a _
        by_cases h : a.id = i <;> simp [h]
      · simp only [TransactionManager.delete_transactions, List.all_cons, ih3,
          Bool.and_true]
        cases hstep : (Database.delete_transaction db i).1 <;> simp
  · decide

/-- C4: the Manager-side field update rejects any field name outside the
allow-list `date`, `type`, `amount`, `description` before any store
interaction, and the Store-side `update_transaction` returns `false`
(leaving the store unchanged) when no row carries the requested id. -/
theorem update_transaction_field_allowlist :
    (∀ (db : DB) (transaction_id : Nat) (field value : String),
      field ≠ "date" → field ≠ "type" → field ≠ "amount" → field ≠ "description" →
      ∃ e, TransactionManager.update_transaction_field db transaction_id field value
          = .error e)
    ∧ (∀ (db : DB) (transaction_id : Nat) (f : Column) (v : ColValue),
      (db.transactions.all fun t => !decide (t.id = transaction_id)) = true →
      Database.update_transaction db transaction_id f v = (false, db)) := by
  constructor
  · intro db tid field value h1 h2 h3 h4
    refine ⟨"Unknown field name", ?_⟩
    simp only [TransactionManager.update_transaction_field, if_neg h1, if_neg h2,
      if_neg h3, if_neg h4]
  · intro db tid f v h
    simp only [List.all_eq_true] at h
    unfold Database.update_transaction
    have hany : (db.transactions.any fun t => decide (t.id = tid)) = false := by
      simp only [List.any_eq_false]
      intro t ht
      simpa using h t ht
    rw [hany]
    have hmap : (db.transactions.map fun t => if t.id = tid then setColumn t f v else t)
        = db.transactions := by
      rw [List.map_congr_left (g := id), List.map_id]
      intro t ht
      have := h t ht
      simp only [Bool.not_eq_true', decide_eq_false_iff_not] at this
      simp [this]
    rw [hmap]

theorem update_transaction_field_allowlist_witness :
    (∃ e, TransactionManager.update_transaction_field ⟨[], 1, 0⟩ 1 "user_id" "7"
        = Except.error e)
    ∧ Database.update_transaction
        ⟨[⟨1, ⟨2024, 1, 1⟩, "expense", "a", 5, none, 0⟩], 2, 1⟩ 999 Column.amount
        (ColValue.ratV 9)
      = (false, ⟨[⟨1, ⟨2024, 1, 1⟩, "expense", "a", 5, none, 0⟩], 2, 1⟩) :=
  ⟨update_transaction_field_allowlist.1 _ _ _ "7" (by decide) (by decide) (by decide)
      (by decide),
   update_transaction_field_allowlist.2 _ 999 _ _ (by decide)⟩

/-- C9: `share_filter` succeeds exactly when an accepted partnership links
owner and partner in either direction; without one it fails with the
permission error and changes nothing; and repeating the same call is a
no-op returning the same outcome on the same state. -/
theorem share_filter_requires_partnership_idempotent :
    ∀ (db : ShareDB) (filter_id owner_id partner_id : Nat),
      ((Database.share_filter db filter_id owner_id partner_id).1.1
          = hasAcceptedPartnership db owner_id partner_id)
      ∧ (hasAcceptedPartnership db owner_id partner_id = false →
          Database.share_filter db filter_id owner_id partner_id
            = ((false, some "No active partnership found"), db))
      ∧ Database.share_filter (Database.share_filter db filter_id owner_id partner_id).2
            filter_id owner_id partner_id
          = Database.share_filter db filter_id owner_id partner_id := by
  intro db fid oid pid
  cases hp : hasAcceptedPartnership db oid pid with
  | false =>
    have hpneg : ¬ (hasAcceptedPartnership db oid pid = true) := by simp [hp]
    have hfirst : Database.share_filter db fid oid pid
        = ((false, some "No active partnership found"), db) := by
      unfold Database.share_filter
      rw [if_neg hpneg]
    exact ⟨by rw [hfirst], fun _ => hfirst, by rw [hfirst]; exact hfirst⟩
  | true =>
    cases hex : db.shared_filters.any fun sf =>
        decide (sf.filter_id = fid ∧ sf.owner_id = oid ∧ sf.shared_with_id = pid) with
    | true =>
      have hfirst : Database.share_filter db fid oid pid = ((true, none), db) := by
        unfold Database.share_filter
        rw [if_pos hp, if_pos hex]
      refine ⟨by rw [hfirst], fun hc => ?_, by rw [hfirst]; exact hfirst⟩
      exact Bool.noConfusion hc
    | false =>
      have hexneg : ¬ ((db.shared_filters.any fun sf =>
          decide (sf.filter_id = fid ∧ sf.owner_id = oid ∧ sf.shared_with_id = pid))
            = true) := fun hcontra => by rw [hcontra] at hex; exact Bool.noConfusion hex
      have hfirst : Database.share_filter db fid oid pid
          = ((true, none),
             { db with
               shared_filters :=
                 db.shared_filters ++ [⟨fid, oid, pid, "pending", db.nextSeq⟩]
               nextSeq := db.nextSeq + 1 }) := by
        unfold Database.share_filter
        rw [if_pos hp, if_neg hexneg]
      refine ⟨by rw [hfirst], fun hc => ?_, ?_⟩
      · exact Bool.noConfusion hc
      · rw [hfirst]
        show Database.share_filter
            { db with
              shared_filters :=
                db.shared_filters ++ [⟨fid, oid, pid, "pending", db.nextSeq⟩]
              nextSeq := db.nextSeq + 1 } fid oid pid = _
        have hp2 : hasAcceptedPartnership
            { db with
              shared_filters :=
                db.shared_filters ++ [⟨fid, oid, pid, "pending", db.nextSeq⟩]
              nextSeq := db.nextSeq + 1 } oid pid = true := hp
        have hex2 : (({ db with
              shared_filters :=
                db.shared_filters ++ [⟨fid, oid, pid, "pending", db.nextSeq⟩]
              nextSeq := db.nextSeq + 1 } : ShareDB).shared_filters.any fun sf =>
            decide (sf.filter_id = fid ∧ sf.owner_id = oid ∧ sf.shared_with_id = pid))
              = true := by
          simp [List.any_append]
        unfold Database.share_filter
        rw [if_pos hp2, if_pos hex2]

theorem share_filter_requires_partnership_idempotent_witness :
    Database.share_filter ⟨[], [], [], [], 0⟩ 1 1 2
      = ((false, some "No active partnership found"), ⟨[], [], [], [], 0⟩) :=
  (share_filter_requires_partnership_idempotent ⟨[], [], [], [], 0⟩ 1 1 2).2.1 (by decide)

/-- C10: for a row number within the displayed table,
`delete_transaction_by_row` resolves the row to its
`(date, description, amount)` values and succeeds, removing from the store
every transaction agreeing with the resolved row on those three fields —
the surrogate id is ignored, so when several rows share the triple one call
deletes them all. -/
theorem delete_transaction_by_row_deletes_triple (db : DB) (row_number : Nat)
    (h1 : 1 ≤ row_number)
    (h2 : row_number ≤ (TransactionManager.get_transactions_df db).length) :
    TransactionManager.delete_transaction_by_row db row_number
      = .ok { db with transactions := (db.transactions.filter fun u =>
          !decide (u.date
              = ((TransactionManager.get_transactions_df db).getD (row_number - 1) default).date
            ∧ u.description
              = ((TransactionManager.get_transactions_df db).getD (row_number - 1) default).description
            ∧ u.amount
              = ((TransactionManager.get_transactions_df db).getD (row_number - 1) default).amount)) } := by
  unfold TransactionManager.delete_transaction_by_row
  rw [if_neg (by omega : ¬ row_number < 1)]
  have hlen : ¬ ((TransactionManager.get_transactions_df db).isEmpty
      ∨ (TransactionManager.get_transactions_df db).length < row_number) := by
    rintro (he | hl)
    · rw [List.isEmpty_iff, ← List.length_eq_zero] at he
      omega
    · omega
  rw [if_neg hlen]
  have hlt : row_number - 1 < (TransactionManager.get_transactions_df db).length := by omega
  have hmemdf : (TransactionManager.get_transactions_df db).getD (row_number - 1) default
      ∈ TransactionManager.get_transactions_df db := by
    rw [List.getD_eq_getElem?_getD, List.getElem?_eq_getElem hlt]
    exact List.getElem_mem _
  have hmem : (TransactionManager.get_transactions_df db).getD (row_number - 1) default
      ∈ db.transactions :=
    (List.perm_insertionSort dfLe db.transactions).mem_iff.mp hmemdf
  have hne : ¬ ((db.transactions.filter fun u =>
      decide (u.date
          = ((TransactionManager.get_transactions_df db).getD (row_number - 1) default).date
        ∧ u.description
          = ((TransactionManager.get_transactions_df db).getD (row_number - 1) default).description
        ∧ u.amount
          = ((TransactionManager.get_transactions_df db).getD (row_number - 1) default).amount)).isEmpty
            = true) := by
    rw [List.isEmpty_iff]
    intro hcontra
    have : (TransactionManager.get_transactions_df db).getD (row_number - 1) default
        ∈ (db.transactions.filter fun u =>
          decide (u.date
              = ((TransactionManager.get_transactions_df db).getD (row_number - 1) default).date
            ∧ u.description
              = ((TransactionManager.get_transactions_df db).getD (row_number - 1) default).description
            ∧ u.amount
              = ((TransactionManager.get_transactions_df db).getD (row_number - 1) default).amount)) := by
      rw [List.mem_filter]
      exact ⟨hmem, by simp⟩
    rw [hcontra] at this
    cases this
  rw [if_neg hne]

/-- C5: the claim that pending or rejected shares are invisible to the
recipient is false on the code: `get_shared_filters` has no condition on
the sharing status, so a share whose status is `pending` is returned to the
recipient. -/
theorem get_shared_filters_status_counterexample :
    Database.get_shared_filters
        ⟨[⟨1, "alice"⟩, ⟨2, "bob"⟩], [⟨10, "f", "type", "gas", some 1⟩],
         [⟨10, 1, 2, "pending", 0⟩], [], 1⟩ 2
      = [⟨10, "f", "type", "gas", "alice", 0⟩]
    ∧ (⟨10, 1, 2, "pending", 0⟩ : SharedFilter).status = "pending" := by
  exact ⟨by decide, rfl⟩

/-- C5 (amended): `get_shared_filters user` returns exactly the rows built
from the shares addressed to `user` whose filter and owner resolve in the
join, regardless of the sharing status: rewriting every share status
arbitrarily leaves the result unchanged, and membership in the result is
characterised without any condition on the status. -/
theorem get_shared_filters_ignores_status :
    (∀ (db : ShareDB) (user_id : Nat) (f : SharedFilter → String),
      Database.get_shared_filters
        { db with shared_filters := db.shared_filters.map fun sf => { sf with status := f sf } }
        user_id
      = Database.get_shared_filters db user_id)
    ∧ (∀ (db : ShareDB) (user_id : Nat) (r : SharedFilterRow),
      r ∈ Database.get_shared_filters db user_id ↔
        ∃ sf ∈ db.shared_filters, sf.shared_with_id = user_id ∧
          ∃ fl, db.saved_filters.find? (fun f2 => decide (f2.id = sf.filter_id)) = some fl ∧
          ∃ u, db.users.find? (fun u2 => decide (u2.id = sf.owner_id)) = some u ∧
          r = ⟨fl.id, fl.name, fl.filter_column, fl.filter_text, u.username, sf.created_at⟩) := by
  constructor
  · intro db uid f
    unfold Database.get_shared_filters
    rw [List.filter_map]
    rw [show ((fun sf : SharedFilter => decide (sf.shared_with_id = uid)) ∘ fun sf =>
        { sf with status := f sf }) = fun sf : SharedFilter => decide (sf.shared_with_id = uid)
      from rfl]
    rw [← List.map_insertionSort sharedOrder sharedOrder
        (fun sf => { sf with status := f sf })
        (List.filter (fun sf => decide (sf.shared_with_id = uid)) db.shared_filters)
        (fun a _ b _ => Iff.rfl)]
    rw [List.filterMap_map]
    rfl
  · intro db uid r
    unfold Database.get_shared_filters
    simp only [List.mem_filterMap, List.mem_insertionSort, List.mem_filter,
      decide_eq_true_eq]
    constructor
    · rintro ⟨sf, ⟨hsf, hsw⟩, hg⟩
      refine ⟨sf, hsf, hsw, ?_⟩
      cases hf : db.saved_filters.find? fun f2 => decide (f2.id = sf.filter_id) with
      | none => rw [hf] at hg; exact Option.noConfusion hg
      | some fl =>
        cases hu : db.users.find? fun u2 => decide (u2.id = sf.owner_id) with
        | none => rw [hf, hu] at hg; exact Option.noConfusion hg
        | some u =>
          rw [hf, hu] at hg
          exact ⟨fl, rfl, u, rfl, (Option.some.injEq _ _ ▸ hg).symm⟩
    · rintro ⟨sf, hsf, hsw, fl, hf, u, hu, hr⟩
      exact ⟨sf, ⟨hsf, hsw⟩, by rw [hf, hu, hr]⟩

/-- C7: the monthly breakdown of `get_summary_stats` contains the pair
`(k, v)` exactly when some stored transaction has a date in the month with
key `k` and `v` is the sum of the amounts of the transactions whose date
falls in that month — the grouping reads only the transaction date (a
transaction dated 2024-01-31 is keyed "2024-01", and the key never depends
on the day or on `created_at`). -/
theorem monthly_breakdown_by_date_month :
    (∀ (db : DB) (k : String) (v : Rat),
      (k, v) ∈ (TransactionManager.get_summary_stats db).monthly_breakdown ↔
        (∃ t ∈ db.transactions, monthKey t.date = k) ∧
          v = ((db.transactions.filter fun t => decide (monthKey t.date = k)).map
                Txn.amount).sum)
    ∧ monthKey ⟨2024, 1, 31⟩ = "2024-01"
    ∧ (∀ y m d d2 : Nat, monthKey ⟨y, m, d⟩ = monthKey ⟨y, m, d2⟩) := by
  refine ⟨?_, by decide, fun y m d d2 => rfl⟩
  intro db k v
  by_cases hemp : db.transactions = []
  · simp [TransactionManager.get_summary_stats, TransactionManager.get_transactions_df,
      Database.get_transactions, hemp, List.insertionSort]
  · have hperm := List.perm_insertionSort dfLe db.transactions
    have hne : ¬ ((TransactionManager.get_transactions_df db).isEmpty = true) := by
      rw [List.isEmpty_iff]
      intro hc
      unfold TransactionManager.get_transactions_df Database.get_transactions at hc
      rw [hc] at hperm
      exact hemp (List.nil_perm.mp hperm)
    simp only [TransactionManager.get_summary_stats]
    rw [if_neg hne]
    simp only [TransactionManager.get_transactions_df, Database.get_transactions] at hperm ⊢
    constructor
    · intro hmem
      rw [List.mem_map] at hmem
      obtain ⟨k2, hk2, heq⟩ := hmem
      injection heq with h1 h2
      subst h1
      rw [List.mem_insertionSort, List.mem_dedup, List.mem_map] at hk2
      obtain ⟨t, ht, hkt⟩ := hk2
      refine ⟨⟨t, hperm.mem_iff.mp ht, hkt⟩, ?_⟩
      rw [← h2]
      exact List.Perm.sum_eq ((hperm.filter _).map Txn.amount)
    · rintro ⟨⟨t, ht, hkt⟩, hv⟩
      rw [List.mem_map]
      refine ⟨k, ?_, ?_⟩
      · rw [List.mem_insertionSort, List.mem_dedup, List.mem_map]
        exact ⟨t, hperm.mem_iff.mpr ht, hkt⟩
      · rw [hv, Prod.mk.injEq]
        exact ⟨rfl, List.Perm.sum_eq ((hperm.filter _).map Txn.amount)⟩

/-- `anySuffix` accepts iff some suffix is accepted. -/
theorem anySuffix_eq_true (f : List Char → Bool) : ∀ s : List Char,
    anySuffix f s = true ↔ ∃ s2, s2 <:+ s ∧ f s2 = true := by
  intro s
  induction s with
  | nil =>
    simp only [anySuffix, List.suffix_nil]
    exact ⟨fun h => ⟨[], rfl, h⟩, fun ⟨s2, h2, hf⟩ => h2 ▸ hf⟩
  | cons c s ih =>
    simp only [anySuffix, Bool.or_eq_true, ih]
    constructor
    · rintro (h | ⟨s2, hs2, hf⟩)
      · exact ⟨c :: s, List.suffix_rfl, h⟩
      · exact ⟨s2, hs2.trans (List.suffix_cons c s), hf⟩
    · rintro ⟨s2, hs2, hf⟩
      rcases List.suffix_cons_iff.mp hs2 with rfl | h
      · exact Or.inl hf
      · exact Or.inr ⟨s2, h, hf⟩

/-- The empty-pattern tail `%` matches every string. -/
theorem anySuffix_isEmpty (s : List Char) :
    anySuffix (fun s2 => List.isEmpty s2) s = true := by
  induction s with
  | nil => rfl
  | cons c s ih => simp [anySuffix, ih]

/-- The pattern consisting of a single `%` matches everything. -/
theorem likeMatch_pct (s : List Char) : likeMatch ['%'] s = true := by
  rw [likeMatch.eq_def]
  simp only [reduceIte]
  have : (fun s2 => likeMatch [] s2) = fun s2 : List Char => List.isEmpty s2 := by
    funext s2
    rw [likeMatch.eq_def]
  rw [this]
  exact anySuffix_isEmpty s

/-- A literal pattern character never matches the empty string. -/
theorem likeMatch_lit_cons_nil (c : Char) (hc : litChar c) (p : List Char) :
    likeMatch (c :: p) [] = false := by
  obtain ⟨h1, h2, h3⟩ := hc
  rw [likeMatch.eq_def]
  simp only [if_neg h1, if_neg h2, if_neg h3]

/-- A literal pattern character matches one equal character. -/
theorem likeMatch_lit_cons (c : Char) (hc : litChar c) (p : List Char) (d : Char)
    (s : List Char) :
    likeMatch (c :: p) (d :: s) = (d == c && likeMatch p s) := by
  obtain ⟨h1, h2, h3⟩ := hc
  rw [likeMatch.eq_def]
  simp only [if_neg h1, if_neg h2, if_neg h3]

/-- A run of literal characters at the head of a pattern matches exactly as
a prefix, leaving the rest of the pattern on the rest of the string. -/
theorem likeMatch_append_lit : ∀ t : List Char, (∀ c ∈ t, litChar c) → ∀ p s : List Char,
    likeMatch (t ++ p) s = true ↔ t <+: s ∧ likeMatch p (s.drop t.length) = true := by
  intro t
  induction t with
  | nil => intro _ p s; simp
  | cons c t ih =>
    intro hlit p s
    have hc : litChar c := hlit c (List.mem_cons_self c t)
    have hlit2 : ∀ x ∈ t, litChar x := fun x hx => hlit x (List.mem_cons_of_mem c hx)
    cases s with
    | nil =>
      rw [List.cons_append, likeMatch_lit_cons_nil c hc]
      simp
    | cons d s =>
      rw [List.cons_append, likeMatch_lit_cons c hc _ d s]
      simp only [Bool.and_eq_true, beq_iff_eq, ih hlit2 p s, List.cons_prefix_cons,
        List.length_cons, List.drop_succ_cons]
      constructor
      · rintro ⟨hdc, hpre, hm⟩
        exact ⟨⟨hdc.symm, hpre⟩, hm⟩
      · rintro ⟨⟨hcd, hpre⟩, hm⟩
        exact ⟨hcd.symm, hpre, hm⟩

/-- For a metacharacter-free term `t`, the pattern `%t%` built by
`filter_transactions` matches a string exactly when `t` occurs in it as a
contiguous substring. -/
theorem likeMatch_wrapped_iff (t : List Char) (ht : ∀ c ∈ t, litChar c) (s : List Char) :
    likeMatch ('%' :: (t ++ ['%'])) s = true ↔ t <:+: s := by
  have hopen : likeMatch ('%' :: (t ++ ['%'])) s
      = anySuffix (fun s2 => likeMatch (t ++ ['%']) s2) s := by
    rw [likeMatch.eq_def]
    rfl
  rw [hopen, anySuffix_eq_true]
  constructor
  · rintro ⟨s2, hsuf, hm⟩
    rw [likeMatch_append_lit t ht] at hm
    exact List.infix_iff_prefix_suffix.mpr ⟨s2, hm.1, hsuf⟩
  · intro hinf
    obtain ⟨s2, hpre, hsuf⟩ := List.infix_iff_prefix_suffix.mp hinf
    exact ⟨s2, hsuf, (likeMatch_append_lit t ht ['%'] s2).mpr ⟨hpre, likeMatch_pct _⟩⟩

/-- Lower-casing maps `A`-`Z` into `a`-`z` and fixes everything else, so it
never creates a `LIKE` metacharacter. -/
theorem litChar_toLower {c : Char} (hc : litChar c) : litChar c.toLower := by
  by_cases h : c.toNat ≥ 65 ∧ c.toNat ≤ 90
  · obtain ⟨h1, h2⟩ := h
    have hc2 : c = Char.ofNat c.toNat := (Char.ofNat_toNat c).symm
    generalize hn : c.toNat = n at h1 h2 hc2
    subst hc2
    interval_cases n <;> decide
  · have heq : c.toLower = c := by
      simp only [Char.toLower]
      rw [if_neg h]
    rw [heq]
    exact hc

/-- One `LOWER(col) LIKE LOWER('%term%')` condition coincides with
case-insensitive substring occurrence whenever the term has no `LIKE`
metacharacter. -/
theorem likeTokenMatch_iff_substring (term target : String)
    (h : ∀ c ∈ term.data, litChar c) :
    likeTokenMatch term target = true ↔ substringCI term target := by
  unfold likeTokenMatch substringCI
  exact likeMatch_wrapped_iff (term.data.map Char.toLower)
    (fun c hc => by
      obtain ⟨c0, hc0, rfl⟩ := List.mem_map.mp hc
      exact litChar_toLower (h c0 hc0))
    (target.data.map Char.toLower)

/-- C8 (counterexample): the search value `a_c` contains the `LIKE`
single-character wildcard `_`, which is passed through unescaped, so the
filter returns a row whose description does not contain `a_c` as a
substring at all. -/
theorem filter_transactions_underscore_counterexample :
    Database.filter_transactions ⟨[⟨1, ⟨2024, 1, 15⟩, "expense", "abc", 5, none, 0⟩], 2, 1⟩
        "description" "a_c" none none
      = [⟨1, ⟨2024, 1, 15⟩, "expense", "abc", 5, none, 0⟩]
    ∧ ¬ substringCI "a_c" "abc" :=
  ⟨by decide, by decide⟩

/-- C8 (amended): for `column` in `type`/`description` the filter keeps
exactly the scoped rows where at least one comma-separated stripped term
`LIKE`-matches the column (`%` and `_` acting as wildcards, backslash as
escape); when every term is free of `LIKE` metacharacters this is exactly
the claimed union of case-insensitive substring matches. -/
theorem filter_transactions_substring_or (db : DB) (column value : String)
    (user_id owner_id : Option Nat) (t : Txn)
    (hcol : column = "type" ∨ column = "description")
    (hterms : ∀ term ∈ splitTerms value, ∀ c ∈ term.data, litChar c) :
    t ∈ Database.filter_transactions db column value user_id owner_id ↔
      t ∈ db.transactions ∧ filterScope user_id owner_id t = true ∧
        ∃ term ∈ splitTerms value,
          substringCI term (if column = "type" then t.ttype else t.description) := by
  have key : ∀ target : String,
      ((splitTerms value).any fun term => likeTokenMatch term target) = true ↔
        ∃ term ∈ splitTerms value, substringCI term target := by
    intro target
    rw [List.any_eq_true]
    constructor
    · rintro ⟨term, hterm, hm⟩
      exact ⟨term, hterm, (likeTokenMatch_iff_substring term target (hterms term hterm)).mp hm⟩
    · rintro ⟨term, hterm, hm⟩
      exact ⟨term, hterm, (likeTokenMatch_iff_substring term target (hterms term hterm)).mpr hm⟩
  rcases hcol with hcol | hcol <;> subst hcol
  · rw [show Database.filter_transactions db "type" value user_id owner_id
        = List.insertionSort dfLe ((db.transactions.filter (filterScope user_id owner_id)).filter
            fun t => (splitTerms value).any fun term => likeTokenMatch term t.ttype)
      from by simp [Database.filter_transactions]]
    rw [List.mem_insertionSort, List.mem_filter, List.mem_filter]
    rw [key t.ttype]
    simp [and_assoc]
  · rw [show Database.filter_transactions db "description" value user_id owner_id
        = List.insertionSort dfLe ((db.transactions.filter (filterScope user_id owner_id)).filter
            fun t => (splitTerms value).any fun term => likeTokenMatch term t.description)
      from by simp [Database.filter_transactions]]
    rw [List.mem_insertionSort, List.mem_filter, List.mem_filter]
    rw [key t.description]
    rw [if_neg (by decide : ¬ ("description" : String) = "type")]
    simp [and_assoc]

theorem filter_transactions_substring_or_witness :
    ⟨1, ⟨2024, 1, 15⟩, "expense", "abc", 5, none, 0⟩
        ∈ Database.filter_transactions
            ⟨[⟨1, ⟨2024, 1, 15⟩, "expense", "abc", 5, none, 0⟩], 2, 1⟩
            "type" "gas,EXP" none none ↔
      (⟨1, ⟨2024, 1, 15⟩, "expense", "abc", 5, none, 0⟩ : Txn)
          ∈ (⟨[⟨1, ⟨2024, 1, 15⟩, "expense", "abc", 5, none, 0⟩], 2, 1⟩ : DB).transactions
        ∧ filterScope none none ⟨1, ⟨2024, 1, 15⟩, "expense", "abc", 5, none, 0⟩ = true
        ∧ ∃ term ∈ splitTerms "gas,EXP",
            substringCI term (if ("type" : String) = "type"
              then (⟨1, ⟨2024, 1, 15⟩, "expense", "abc", 5, none, 0⟩ : Txn).ttype
              else (⟨1, ⟨2024, 1, 15⟩, "expense", "abc", 5, none, 0⟩ : Txn).description) :=
  filter_transactions_substring_or
    ⟨[⟨1, ⟨2024, 1, 15⟩, "expense", "abc", 5, none, 0⟩], 2, 1⟩ "type" "gas,EXP" none none
    ⟨1, ⟨2024, 1, 15⟩, "expense", "abc", 5, none, 0⟩ (Or.inl rfl) (by decide)

theorem delete_transaction_by_row_deletes_triple_witness :
    TransactionManager.delete_transaction_by_row
      ⟨[⟨1, ⟨2024, 1, 1⟩, "expense", "coffee", 5, none, 0⟩,
        ⟨2, ⟨2024, 1, 1⟩, "expense", "coffee", 5, none, 1⟩], 3, 2⟩ 1
      = .ok ⟨[], 3, 2⟩ :=
  (delete_transaction_by_row_deletes_triple
    ⟨[⟨1, ⟨2024, 1, 1⟩, "expense", "coffee", 5, none, 0⟩,
      ⟨2, ⟨2024, 1, 1⟩, "expense", "coffee", 5, none, 1⟩], 3, 2⟩ 1
    (by decide) (by decide)).trans (by decide)

end BudgetGPT
